import Mathlib

/-!
Shallow embedding of `caffe2/core/operator_gradient.h` (the gradient-operator
synthesis core of caffe2) and proofs about it.

The C++ source is a single header.  Machine state is modelled explicitly:
a `MakerState` carries the forward operator definition `def_`, the borrowed
output-gradient wrappers `g_output_` and the owned, mutable input-gradient
wrappers `g_input_`.  Fallible member functions (which throw via
`CAFFE_ENFORCE` or via `std::vector::at`) are modelled as functions into
`Except Err`; mutating members additionally return the updated state.
-/

set_option autoImplicit false

namespace Caffe2

/-- Model of the protobuf `OperatorDef`: only the fields this header reads
(`type()`, `input()`, `output()`, `is_gradient_op`).  The remaining proto
fields (device option, engine, arguments, ...) are opaque to
`operator_gradient.h` and are not modelled. -/
structure OperatorDef where
  type : String
  inputs : List String
  outputs : List String
  is_gradient_op : Bool
deriving Repr, DecidableEq

/-- `struct GradientWrapper`: three string fields, empty string = unset. -/
structure GradientWrapper where
  dense_ : String := ""
  indices_ : String := ""
  values_ : String := ""
deriving Repr, DecidableEq

namespace GradientWrapper

/-- `IsDense(): return dense_.size();` -/
def IsDense (w : GradientWrapper) : Bool :=
  decide (w.dense_.length ≠ 0)

/-- `IsSparse(): return (indices_.size() || values_.size());` -/
def IsSparse (w : GradientWrapper) : Bool :=
  decide (w.indices_.length ≠ 0) || decide (w.values_.length ≠ 0)

/-- `IsEmpty(): return (!IsDense() && !IsSparse());` -/
def IsEmpty (w : GradientWrapper) : Bool :=
  !w.IsDense && !w.IsSparse

end GradientWrapper

/-- `struct GradientOpsMeta`: gradient operator defs plus input wrappers. -/
structure GradientOpsMeta where
  ops_ : List OperatorDef
  g_input_ : List GradientWrapper
deriving Repr, DecidableEq

/-- Failure conditions of the member functions: a `CAFFE_ENFORCE` failure
carrying the formatted message, or `std::out_of_range` thrown by
`std::vector::at`. -/
inductive Err where
  | enforceFailed (msg : String)
  | atOutOfRange
deriving Repr, DecidableEq

/-- `std::vector::at(i)` on a vector indexed by a C++ `int`: throws
`std::out_of_range` unless `0 <= i < size()` (a negative `int` converts to a
huge `size_t`, hence also out of range). -/
def vecAt {α : Type} (xs : List α) (i : Int) : Except Err α :=
  if h : 0 ≤ i ∧ i.toNat < xs.length then .ok (xs.get ⟨i.toNat, h.2⟩)
  else .error .atOutOfRange

/-- State of a `GradientMakerBase` object: the borrowed forward def,
the borrowed output gradient wrappers, and the owned input gradient
wrappers. -/
structure MakerState where
  def_ : OperatorDef
  g_output_ : List GradientWrapper
  g_input_ : List GradientWrapper
deriving Repr, DecidableEq

/-- The `GradientMakerBase(def, g_output)` constructor:
`g_input_(def.input_size())` value-initialises `input_size()` empty
wrappers. -/
def mkGradientMaker (d : OperatorDef) (g_output : List GradientWrapper) : MakerState :=
  ⟨d, g_output, List.replicate d.inputs.length {}⟩

/-- `GradientName(name) = name + "_grad"`. -/
def GradientName (name : String) : String :=
  name ++ "_grad"

/-- `GradientSliceIndices(name) = name + "_grad_indices"`. -/
def GradientSliceIndices (name : String) : String :=
  name ++ "_grad_indices"

/-- `GradientSliceValues(name) = name + "_grad_values"`. -/
def GradientSliceValues (name : String) : String :=
  name ++ "_grad_values"

namespace MakerState

/-- `def_.input(i)` as read by the message/naming code once `i` is known to
be in range (the proto accessor itself is unchecked in release builds; it is
only reached after `g_input_.at(i)` succeeded, and `g_input_` is sized to
the input count). -/
def inputName (s : MakerState) (i : Int) : String :=
  s.def_.inputs.getD i.toNat ""

/-- `def_.output(i)` as read by the message code, see `inputName`. -/
def outputName (s : MakerState) (i : Int) : String :=
  s.def_.outputs.getD i.toNat ""

/-- `string I(const int i)`: bounds-enforced forward input name. -/
def I (s : MakerState) (i : Int) : Except Err String :=
  if h : 0 ≤ i ∧ i.toNat < s.def_.inputs.length then
    .ok (s.def_.inputs.get ⟨i.toNat, h.2⟩)
  else
    .error (.enforceFailed "(i >= 0) && (i < def_.input().size())")

/-- `string O(const int i)`: bounds-enforced forward output name. -/
def O (s : MakerState) (i : Int) : Except Err String :=
  if h : 0 ≤ i ∧ i.toNat < s.def_.outputs.length then
    .ok (s.def_.outputs.get ⟨i.toNat, h.2⟩)
  else
    .error (.enforceFailed "(i >= 0) && (i < def_.output().size())")

/-- `string GI(const int i)`: enforce the slot is not sparse, then record and
return `GradientName(def_.input(i))`. -/
def GI (s : MakerState) (i : Int) : Except Err (String × MakerState) :=
  match vecAt s.g_input_ i with
  | .error e => .error e
  | .ok w =>
    if w.IsSparse then
      .error (.enforceFailed ("Input " ++ s.inputName i ++ " already set to sparse."))
    else
      .ok (GradientName (s.inputName i),
        { s with g_input_ := s.g_input_.set i.toNat { w with dense_ := GradientName (s.inputName i) } })

/-- `string GI_I(const int i)`: enforce the slot is not dense, then record and
return `GradientSliceIndices(def_.input(i))`. -/
def GI_I (s : MakerState) (i : Int) : Except Err (String × MakerState) :=
  match vecAt s.g_input_ i with
  | .error e => .error e
  | .ok w =>
    if w.IsDense then
      .error (.enforceFailed ("Input " ++ s.inputName i ++ " already set to dense."))
    else
      .ok (GradientSliceIndices (s.inputName i),
        { s with g_input_ := s.g_input_.set i.toNat { w with indices_ := GradientSliceIndices (s.inputName i) } })

/-- `string GI_V(const int i)`: enforce the slot is not dense, then record and
return `GradientSliceValues(def_.input(i))`. -/
def GI_V (s : MakerState) (i : Int) : Except Err (String × MakerState) :=
  match vecAt s.g_input_ i with
  | .error e => .error e
  | .ok w =>
    if w.IsDense then
      .error (.enforceFailed ("Input " ++ s.inputName i ++ " already set to dense."))
    else
      .ok (GradientSliceValues (s.inputName i),
        { s with g_input_ := s.g_input_.set i.toNat { w with values_ := GradientSliceValues (s.inputName i) } })

/-- `string GO(const int i)`: enforce the output wrapper is dense,
distinguishing "is sparse (expected dense)." from "is not provided!",
then return its dense name. -/
def GO (s : MakerState) (i : Int) : Except Err String :=
  match vecAt s.g_output_ i with
  | .error e => .error e
  | .ok w =>
    if w.IsDense then
      .ok w.dense_
    else
      .error (.enforceFailed ("Gradient of output " ++ s.outputName i ++
        (if w.IsSparse then " is sparse (expected dense)." else " is not provided!")))

/-- `string GO_I(const int i)`: enforce the output wrapper is sparse,
then return its indices name. -/
def GO_I (s : MakerState) (i : Int) : Except Err String :=
  match vecAt s.g_output_ i with
  | .error e => .error e
  | .ok w =>
    if w.IsSparse then
      .ok w.indices_
    else
      .error (.enforceFailed ("Gradient of output " ++ s.outputName i ++
        (if w.IsDense then " is dense (expected sparse)." else " is not provided!")))

/-- `string GO_V(const int i)`: enforce the output wrapper is sparse,
then return its values name. -/
def GO_V (s : MakerState) (i : Int) : Except Err String :=
  match vecAt s.g_output_ i with
  | .error e => .error e
  | .ok w =>
    if w.IsSparse then
      .ok w.values_
    else
      .error (.enforceFailed ("Gradient of output " ++ s.outputName i ++
        (if w.IsDense then " is dense (expected sparse)." else " is not provided!")))

/-- `const GradientWrapper& GradOut(int i)`: raw access through `.at`. -/
def GradOut (s : MakerState) (i : Int) : Except Err GradientWrapper :=
  vecAt s.g_output_ i

/-- `void SetDense(const int i, const string& name)`. -/
def SetDense (s : MakerState) (i : Int) (name : String) : Except Err MakerState :=
  match vecAt s.g_input_ i with
  | .error e => .error e
  | .ok w =>
    if w.IsSparse then
      .error (.enforceFailed ("Input " ++ s.inputName i ++ " already set to sparse."))
    else
      .ok { s with g_input_ := s.g_input_.set i.toNat { w with dense_ := name } }

/-- `void SetSparse(const int i, const string& indices, const string& values)`. -/
def SetSparse (s : MakerState) (i : Int) (indices values : String) : Except Err MakerState :=
  match vecAt s.g_input_ i with
  | .error e => .error e
  | .ok w =>
    if w.IsDense then
      .error (.enforceFailed ("Input " ++ s.inputName i ++ " already set to dense."))
    else
      .ok { s with g_input_ := s.g_input_.set i.toNat { w with indices_ := indices, values_ := values } }

end MakerState

/-- `VerifyOp()`: consult the external schema registry (modelled as a
function from type name to an optional checker); if a schema exists and
rejects the def, fail with the debug dump of the def (the dump function is
external too and passed in). -/
def VerifyOp (schemaRegistry : String → Option (OperatorDef → Bool))
    (protoDebugString : OperatorDef → String) (s : MakerState) : Except Err Unit :=
  match schemaRegistry s.def_.type with
  | none => .ok ()
  | some verify =>
    if verify s.def_ then .ok ()
    else .error (.enforceFailed
      ("(GradientMaker) Operator def did not pass schema checking: " ++ protoDebugString s.def_))

/-- The virtual `GradientOpsMeta Get()` template method: verify, run the
(overridable, possibly state-mutating) `GetGradientDefs`, set
`is_gradient_op(true)` on every produced def, and pair them with the
accumulated `g_input_`. -/
def GradientMakerGet (schemaRegistry : String → Option (OperatorDef → Bool))
    (protoDebugString : OperatorDef → String)
    (getGradientDefs : MakerState → Except Err (List OperatorDef × MakerState))
    (s : MakerState) : Except Err GradientOpsMeta :=
  match VerifyOp schemaRegistry protoDebugString s with
  | .error e => .error e
  | .ok _ =>
    match getGradientDefs s with
    | .error e => .error e
    | .ok (new_defs, s₂) =>
      .ok ⟨new_defs.map (fun d => { d with is_gradient_op := true }), s₂.g_input_⟩

/-- The base-class `GetGradientDefs()`: `CAFFE_NOT_IMPLEMENTED`. -/
def baseGetGradientDefs (s : MakerState) : Except Err (List OperatorDef × MakerState) :=
  .error (.enforceFailed ("Not Implemented, type " ++ s.def_.type))

/-- `NoGradient::GetGradientDefs()`: empty list, no state change. -/
def noGradientGetGradientDefs (s : MakerState) : Except Err (List OperatorDef × MakerState) :=
  .ok ([], s)

/-- `NoGradient`'s `Get()` is the inherited base `Get()` over its
`GetGradientDefs`. -/
def noGradientGet (schemaRegistry : String → Option (OperatorDef → Bool))
    (protoDebugString : OperatorDef → String) (s : MakerState) : Except Err GradientOpsMeta :=
  GradientMakerGet schemaRegistry protoDebugString noGradientGetGradientDefs s

/-- `ThrowInTheTowelIfGradientIsCalled::Get()`: `CAFFE_ENFORCE(false, ...)`. -/
def throwInTheTowelGet (s : MakerState) : Except Err GradientOpsMeta :=
  .error (.enforceFailed
    ("One should not call gradient for operator " ++ s.def_.type ++ "."))

/-- `GradientNotImplementedYet::Get()`: `CAFFE_ENFORCE(false, ...)`. -/
def gradientNotImplementedYetGet (s : MakerState) : Except Err GradientOpsMeta :=
  .error (.enforceFailed
    ("Operator " ++ s.def_.type ++ " should have a gradient but is not implemented yet."))

/-- `std::string::find(pat)`: index of the first occurrence of `pat` as a
substring, `none` when absent (C++ returns `npos`). -/
def firstOccur (pat : List Char) : List Char → Option Nat
  | [] => if pat.isPrefixOf ([] : List Char) then some 0 else none
  | c :: rest =>
    if pat.isPrefixOf (c :: rest) then some 0
    else (firstOccur pat rest).map (· + 1)

/-- `IsGradientBlob(name): name.length() > 5 && name.find("_grad") == name.length() - 5`. -/
def IsGradientBlob (name : String) : Bool :=
  decide (5 < name.length) && (firstOccur "_grad".data name.data == some (name.length - 5))

/-- `name.substr(0, name.length() - 5)` as used by `MatchGradsToParams`. -/
def stripGradSuffix (name : String) : String :=
  String.mk (name.data.take (name.length - 5))

/-- `m[k] = v` on a `std::map<string,string>`, modelled on an association
list: replace the value at an existing key, otherwise add the entry. -/
def mapInsert (k v : String) : List (String × String) → List (String × String)
  | [] => [(k, v)]
  | (k₂, v₂) :: rest =>
    if k = k₂ then (k, v) :: rest else (k₂, v₂) :: mapInsert k v rest

/-- `m.find(k)` lookup on the association-list model of `CaffeMap`. -/
def mapLookup (k : String) : List (String × String) → Option String
  | [] => none
  | (k₂, v) :: rest => if k = k₂ then some v else mapLookup k rest

/-- `MatchGradsToParams(op)`: for each output recognised by
`IsGradientBlob`, map it to the output with the 5-char suffix stripped. -/
def MatchGradsToParams (op : OperatorDef) : List (String × String) :=
  op.outputs.foldl
    (fun m out => if IsGradientBlob out then mapInsert out (stripGradSuffix out) m else m)
    []

/-- One call in a mutation sequence on a gradient maker (the state-writing
members). -/
inductive MakerCall where
  | gi (i : Int)
  | giI (i : Int)
  | giV (i : Int)
  | setDense (i : Int) (name : String)
  | setSparse (i : Int) (indices values : String)
deriving Repr, DecidableEq

/-- Run one call; a call that fails throws past the mutation, leaving the
state unchanged. -/
def step (s : MakerState) : MakerCall → MakerState
  | .gi i => match s.GI i with | .ok (_, s₂) => s₂ | .error _ => s
  | .giI i => match s.GI_I i with | .ok (_, s₂) => s₂ | .error _ => s
  | .giV i => match s.GI_V i with | .ok (_, s₂) => s₂ | .error _ => s
  | .setDense i name => match s.SetDense i name with | .ok s₂ => s₂ | .error _ => s
  | .setSparse i a b => match s.SetSparse i a b with | .ok s₂ => s₂ | .error _ => s

/-- Run a sequence of calls. -/
def runCalls (s : MakerState) (cs : List MakerCall) : MakerState :=
  cs.foldl step s

/-- The per-slot representation invariant: never dense and sparse at once. -/
def wrapperOk (w : GradientWrapper) : Bool :=
  !(w.IsDense && w.IsSparse)

/-- The whole-state invariant over `g_input_`. -/
def inputInvariant (s : MakerState) : Bool :=
  s.g_input_.all wrapperOk

/-! ## Concrete examples used to exercise the definitions -/

/-- A tiny forward operator: one input `X`, one output `Y`. -/
def exDef : OperatorDef :=
  ⟨"ExampleOp", ["X"], ["Y"], false⟩

/-- A maker over `exDef` whose output gradient is dense (`Y_grad`). -/
def exMaker : MakerState :=
  ⟨exDef, [⟨"Y_grad", "", ""⟩], [{}]⟩

/-- `exMaker` after a successful `GI(0)`. -/
def exMakerAfterGI : MakerState :=
  ⟨exDef, [⟨"Y_grad", "", ""⟩], [⟨"X_grad", "", ""⟩]⟩

/-- A maker over `exDef` whose output gradient is sparse. -/
def exMakerSparseOut : MakerState :=
  ⟨exDef, [⟨"", "Y_grad_indices", "Y_grad_values"⟩], [{}]⟩

/-- A maker over `exDef` whose output gradient was not provided. -/
def exMakerEmptyOut : MakerState :=
  ⟨exDef, [{}], [{}]⟩

/-- A maker over `exDef` whose output gradient has only `values_` set. -/
def exMakerValuesOnlyOut : MakerState :=
  ⟨exDef, [⟨"", "", "Y_grad_values"⟩], [{}]⟩

/-- A maker over `exDef` whose output gradient has only `indices_` set. -/
def exMakerIndicesOnlyOut : MakerState :=
  ⟨exDef, [⟨"", "Y_grad_indices", ""⟩], [{}]⟩

/-- Operator with outputs `["W_grad", "b"]` (the example of the spec). -/
def exDefWb : OperatorDef :=
  ⟨"FC", ["W", "b"], ["W_grad", "b"], false⟩

/-- Operator whose output `a_grad_grad` ends in `_grad` (length 11 > 5) but
contains an earlier occurrence of `_grad`. -/
def cexDefGradGrad : OperatorDef :=
  ⟨"Cex", [], ["a_grad_grad"], false⟩

/-! ## Theorems -/

theorem vecAt_ok_inv {α : Type} {l : List α} {i : Int} {a : α}
    (h : vecAt l i = .ok a) :
    ∃ hr : 0 ≤ i ∧ i.toNat < l.length, a = l.get ⟨i.toNat, hr.2⟩ := by
  simp only [vecAt] at h
  split at h
  · rename_i h₁
    exact ⟨h₁, (Except.ok.inj h).symm⟩
  · exact absurd h (by simp)

theorem vecAt_set_self {α : Type} (l : List α) (i : Int) (a : α)
    (h : 0 ≤ i ∧ i.toNat < l.length) : vecAt (l.set i.toNat a) i = .ok a := by
  have hl : i.toNat < (l.set i.toNat a).length := by simpa using h.2
  simp only [vecAt]
  rw [dif_pos ⟨h.1, hl⟩]
  simp [List.getElem_set_self]

theorem getD_set_self {α : Type} (l : List α) (n : Nat) (a d : α)
    (h : n < l.length) : (l.set n a).getD n d = a := by
  rw [List.getD, List.get?_eq_getElem?, List.getElem?_set_self (by simpa using h)]
  rfl

theorem string_empty_of_length_zero {s : String} (h : s.length = 0) : s = "" := by
  cases s with
  | mk data =>
    cases data with
    | nil => rfl
    | cons c cs => simp [String.length] at h

theorem not_sparse_fields {w : GradientWrapper} (h : w.IsSparse = false) :
    w.indices_ = "" ∧ w.values_ = "" := by
  simp only [GradientWrapper.IsSparse, Bool.or_eq_false_iff, decide_eq_false_iff_not,
    Decidable.not_not] at h
  exact ⟨string_empty_of_length_zero h.1, string_empty_of_length_zero h.2⟩

theorem not_dense_field {w : GradientWrapper} (h : w.IsDense = false) :
    w.dense_ = "" := by
  simp only [GradientWrapper.IsDense, decide_eq_false_iff_not, Decidable.not_not] at h
  exact string_empty_of_length_zero h

theorem grad_name_is_dense (N : String) :
    GradientWrapper.IsDense ⟨N ++ "_grad", "", ""⟩ = true := by
  simp [GradientWrapper.IsDense, GradientName, String.length_append]
  right
  decide

theorem all_wrapperOk_set {l : List GradientWrapper} {n : Nat} {w : GradientWrapper}
    (h : l.all wrapperOk = true) (hw : wrapperOk w = true) :
    (l.set n w).all wrapperOk = true := by
  simp only [List.all_eq_true] at h ⊢
  intro x hx
  rcases List.mem_or_eq_of_mem_set hx with h₁ | h₁
  · exact h x h₁
  · rw [h₁]; exact hw

theorem wrapperOk_dense_update (w : GradientWrapper) (name : String)
    (h : w.IsSparse = false) : wrapperOk { w with dense_ := name } = true := by
  simp only [wrapperOk, GradientWrapper.IsDense, GradientWrapper.IsSparse] at h ⊢
  simp_all

theorem wrapperOk_indices_update (w : GradientWrapper) (name : String)
    (h : w.IsDense = false) : wrapperOk { w with indices_ := name } = true := by
  simp only [wrapperOk, GradientWrapper.IsDense, GradientWrapper.IsSparse] at h ⊢
  simp_all

theorem wrapperOk_values_update (w : GradientWrapper) (name : String)
    (h : w.IsDense = false) : wrapperOk { w with values_ := name } = true := by
  simp only [wrapperOk, GradientWrapper.IsDense, GradientWrapper.IsSparse] at h ⊢
  simp_all

theorem wrapperOk_sparse_update (w : GradientWrapper) (a b : String)
    (h : w.IsDense = false) : wrapperOk { w with indices_ := a, values_ := b } = true := by
  simp only [wrapperOk, GradientWrapper.IsDense, GradientWrapper.IsSparse] at h ⊢
  simp_all

theorem GI_ok_inv {s : MakerState} {i : Int} {r : String} {s₂ : MakerState}
    (hg : s.GI i = .ok (r, s₂)) :
    ∃ w, vecAt s.g_input_ i = .ok w ∧ w.IsSparse = false ∧
      r = GradientName (s.inputName i) ∧
      s₂ = { s with g_input_ :=
        s.g_input_.set i.toNat { w with dense_ := GradientName (s.inputName i) } } := by
  simp only [MakerState.GI] at hg
  split at hg
  · exact absurd hg (by simp)
  · rename_i w heq
    split at hg
    · exact absurd hg (by simp)
    · rename_i hsp
      obtain ⟨h₁, h₂⟩ := Prod.mk.injEq .. ▸ Except.ok.inj hg
      exact ⟨w, heq, Bool.not_eq_true _ ▸ hsp, h₁.symm, h₂.symm⟩

theorem GI_I_ok_inv {s : MakerState} {i : Int} {r : String} {s₂ : MakerState}
    (hg : s.GI_I i = .ok (r, s₂)) :
    ∃ w, vecAt s.g_input_ i = .ok w ∧ w.IsDense = false ∧
      r = GradientSliceIndices (s.inputName i) ∧
      s₂ = { s with g_input_ :=
        s.g_input_.set i.toNat { w with indices_ := GradientSliceIndices (s.inputName i) } } := by
  simp only [MakerState.GI_I] at hg
  split at hg
  · exact absurd hg (by simp)
  · rename_i w heq
    split at hg
    · exact absurd hg (by simp)
    · rename_i hd
      obtain ⟨h₁, h₂⟩ := Prod.mk.injEq .. ▸ Except.ok.inj hg
      exact ⟨w, heq, Bool.not_eq_true _ ▸ hd, h₁.symm, h₂.symm⟩

theorem GI_V_ok_inv {s : MakerState} {i : Int} {r : String} {s₂ : MakerState}
    (hg : s.GI_V i = .ok (r, s₂)) :
    ∃ w, vecAt s.g_input_ i = .ok w ∧ w.IsDense = false ∧
      r = GradientSliceValues (s.inputName i) ∧
      s₂ = { s with g_input_ :=
        s.g_input_.set i.toNat { w with values_ := GradientSliceValues (s.inputName i) } } := by
  simp only [MakerState.GI_V] at hg
  split at hg
  · exact absurd hg (by simp)
  · rename_i w heq
    split at hg
    · exact absurd hg (by simp)
    · rename_i hd
      obtain ⟨h₁, h₂⟩ := Prod.mk.injEq .. ▸ Except.ok.inj hg
      exact ⟨w, heq, Bool.not_eq_true _ ▸ hd, h₁.symm, h₂.symm⟩

theorem SetDense_ok_inv {s : MakerState} {i : Int} {name : String} {s₂ : MakerState}
    (hg : s.SetDense i name = .ok s₂) :
    ∃ w, vecAt s.g_input_ i = .ok w ∧ w.IsSparse = false ∧
      s₂ = { s with g_input_ := s.g_input_.set i.toNat { w with dense_ := name } } := by
  simp only [MakerState.SetDense] at hg
  split at hg
  · exact absurd hg (by simp)
  · rename_i w heq
    split at hg
    · exact absurd hg (by simp)
    · rename_i hsp
      exact ⟨w, heq, Bool.not_eq_true _ ▸ hsp, (Except.ok.inj hg).symm⟩

theorem SetSparse_ok_inv {s : MakerState} {i : Int} {a b : String} {s₂ : MakerState}
    (hg : s.SetSparse i a b = .ok s₂) :
    ∃ w, vecAt s.g_input_ i = .ok w ∧ w.IsDense = false ∧
      s₂ = { s with g_input_ := s.g_input_.set i.toNat { w with indices_ := a, values_ := b } } := by
  simp only [MakerState.SetSparse] at hg
  split at hg
  · exact absurd hg (by simp)
  · rename_i w heq
    split at hg
    · exact absurd hg (by simp)
    · rename_i hd
      exact ⟨w, heq, Bool.not_eq_true _ ▸ hd, (Except.ok.inj hg).symm⟩

theorem step_preserves_invariant (s : MakerState) (c : MakerCall)
    (h : inputInvariant s = true) : inputInvariant (step s c) = true := by
  cases c with
  | gi i =>
    simp only [step]
    rcases hg : s.GI i with e | p
    · exact h
    · obtain ⟨r, s₂⟩ := p
      obtain ⟨w, -, hsp, -, hs₂⟩ := GI_ok_inv hg
      show inputInvariant s₂ = true
      rw [hs₂]
      exact all_wrapperOk_set h (wrapperOk_dense_update w _ hsp)
  | giI i =>
    simp only [step]
    rcases hg : s.GI_I i with e | p
    · exact h
    · obtain ⟨r, s₂⟩ := p
      obtain ⟨w, -, hd, -, hs₂⟩ := GI_I_ok_inv hg
      show inputInvariant s₂ = true
      rw [hs₂]
      exact all_wrapperOk_set h (wrapperOk_indices_update w _ hd)
  | giV i =>
    simp only [step]
    rcases hg : s.GI_V i with e | p
    · exact h
    · obtain ⟨r, s₂⟩ := p
      obtain ⟨w, -, hd, -, hs₂⟩ := GI_V_ok_inv hg
      show inputInvariant s₂ = true
      rw [hs₂]
      exact all_wrapperOk_set h (wrapperOk_values_update w _ hd)
  | setDense i name =>
    simp only [step]
    rcases hg : s.SetDense i name with e | s₂
    · exact h
    · obtain ⟨w, -, hsp, hs₂⟩ := SetDense_ok_inv hg
      show inputInvariant s₂ = true
      rw [hs₂]
      exact all_wrapperOk_set h (wrapperOk_dense_update w _ hsp)
  | setSparse i a b =>
    simp only [step]
    rcases hg : s.SetSparse i a b with e | s₂
    · exact h
    · obtain ⟨w, -, hd, hs₂⟩ := SetSparse_ok_inv hg
      show inputInvariant s₂ = true
      rw [hs₂]
      exact all_wrapperOk_set h (wrapperOk_sparse_update w a b hd)

theorem runCalls_preserves_invariant (cs : List MakerCall) (s : MakerState)
    (h : inputInvariant s = true) : inputInvariant (runCalls s cs) = true := by
  induction cs generalizing s with
  | nil => exact h
  | cons c cs ih =>
    simp only [runCalls, List.foldl] at *
    exact ih (step s c) (step_preserves_invariant s c h)

/-- C1: starting from a freshly constructed gradient maker, after any
sequence of calls to `GI`, `GI_I`, `GI_V`, `SetDense` and `SetSparse`, no
input-gradient wrapper ever has `IsDense` and `IsSparse` simultaneously
true. -/
theorem C1_dense_sparse_mutually_exclusive (d : OperatorDef)
    (gout : List GradientWrapper) (cs : List MakerCall) :
    (runCalls (mkGradientMaker d gout) cs).g_input_.all
      (fun w => !(w.IsDense && w.IsSparse)) = true := by
  have hinit : inputInvariant (mkGradientMaker d gout) = true := by
    simp only [inputInvariant, mkGradientMaker, List.all_eq_true]
    intro x hx
    rw [List.eq_of_mem_replicate hx]
    rfl
  exact runCalls_preserves_invariant cs _ hinit

/-- C3: on a maker whose forward input `i` is named `N`, a successful
`GI(i)` records and returns exactly `N ++ "_grad"`, and successful
`GI_I(i)` / `GI_V(i)` record and return exactly `N ++ "_grad_indices"` /
`N ++ "_grad_values"`. -/
theorem C3_gradient_name_derivation (s : MakerState) (i : Int) (N : String)
    (r₁ r₂ r₃ : String) (s₁ s₂ s₃ : MakerState)
    (hN : s.def_.inputs.getD i.toNat "" = N) :
    (s.GI i = .ok (r₁, s₁) →
      r₁ = N ++ "_grad" ∧ (s₁.g_input_.getD i.toNat {}).dense_ = N ++ "_grad") ∧
    (s.GI_I i = .ok (r₂, s₂) →
      r₂ = N ++ "_grad_indices" ∧
        (s₂.g_input_.getD i.toNat {}).indices_ = N ++ "_grad_indices") ∧
    (s.GI_V i = .ok (r₃, s₃) →
      r₃ = N ++ "_grad_values" ∧
        (s₃.g_input_.getD i.toNat {}).values_ = N ++ "_grad_values") := by
  have hname : s.inputName i = N := hN
  refine ⟨fun hg => ?_, fun hg => ?_, fun hg => ?_⟩
  · obtain ⟨w, hv, hsp, hr, hs⟩ := GI_ok_inv hg
    obtain ⟨hrange, -⟩ := vecAt_ok_inv hv
    refine ⟨by rw [hr, hname]; rfl, ?_⟩
    rw [hs]
    show ((s.g_input_.set i.toNat _).getD i.toNat {}).dense_ = N ++ "_grad"
    rw [getD_set_self _ _ _ _ hrange.2, hname]
    rfl
  · obtain ⟨w, hv, hd, hr, hs⟩ := GI_I_ok_inv hg
    obtain ⟨hrange, -⟩ := vecAt_ok_inv hv
    refine ⟨by rw [hr, hname]; rfl, ?_⟩
    rw [hs]
    show ((s.g_input_.set i.toNat _).getD i.toNat {}).indices_ = N ++ "_grad_indices"
    rw [getD_set_self _ _ _ _ hrange.2, hname]
    rfl
  · obtain ⟨w, hv, hd, hr, hs⟩ := GI_V_ok_inv hg
    obtain ⟨hrange, -⟩ := vecAt_ok_inv hv
    refine ⟨by rw [hr, hname]; rfl, ?_⟩
    rw [hs]
    show ((s.g_input_.set i.toNat _).getD i.toNat {}).values_ = N ++ "_grad_values"
    rw [getD_set_self _ _ _ _ hrange.2, hname]
    rfl

/-- Witness for C3 at the concrete maker `exMaker` (input named `X`). -/
theorem C3_gradient_name_derivation_witness :
    ("X_grad" = "X" ++ "_grad" ∧
      (exMakerAfterGI.g_input_.getD 0 {}).dense_ = "X" ++ "_grad") ∧
    ("X_grad_indices" = "X" ++ "_grad_indices" ∧
      ((⟨exDef, [⟨"Y_grad", "", ""⟩], [⟨"", "X_grad_indices", ""⟩]⟩ :
        MakerState).g_input_.getD 0 {}).indices_ = "X" ++ "_grad_indices") ∧
    ("X_grad_values" = "X" ++ "_grad_values" ∧
      ((⟨exDef, [⟨"Y_grad", "", ""⟩], [⟨"", "", "X_grad_values"⟩]⟩ :
        MakerState).g_input_.getD 0 {}).values_ = "X" ++ "_grad_values") :=
  ⟨(C3_gradient_name_derivation exMaker 0 "X" "X_grad" "X_grad_indices" "X_grad_values"
      exMakerAfterGI
      ⟨exDef, [⟨"Y_grad", "", ""⟩], [⟨"", "X_grad_indices", ""⟩]⟩
      ⟨exDef, [⟨"Y_grad", "", ""⟩], [⟨"", "", "X_grad_values"⟩]⟩ rfl).1 rfl,
   (C3_gradient_name_derivation exMaker 0 "X" "X_grad" "X_grad_indices" "X_grad_values"
      exMakerAfterGI
      ⟨exDef, [⟨"Y_grad", "", ""⟩], [⟨"", "X_grad_indices", ""⟩]⟩
      ⟨exDef, [⟨"Y_grad", "", ""⟩], [⟨"", "", "X_grad_values"⟩]⟩ rfl).2.1 rfl,
   (C3_gradient_name_derivation exMaker 0 "X" "X_grad" "X_grad_indices" "X_grad_values"
      exMakerAfterGI
      ⟨exDef, [⟨"Y_grad", "", ""⟩], [⟨"", "X_grad_indices", ""⟩]⟩
      ⟨exDef, [⟨"Y_grad", "", ""⟩], [⟨"", "", "X_grad_values"⟩]⟩ rfl).2.2 rfl⟩

/-- C4: after a successful `GI(i)` on the input named `N`, both `GI_I(i)`
and `GI_V(i)` fail with the representation-conflict message naming that
input, the failing calls leave the state unchanged (`step` is the
identity), and the slot stays dense-only with empty indices and values. -/
theorem C4_conflict_after_GI (s : MakerState) (i : Int) (N r : String)
    (s₂ : MakerState)
    (hN : s.def_.inputs.getD i.toNat "" = N)
    (hg : s.GI i = .ok (r, s₂)) :
    s₂.GI_I i = .error (.enforceFailed ("Input " ++ N ++ " already set to dense.")) ∧
    s₂.GI_V i = .error (.enforceFailed ("Input " ++ N ++ " already set to dense.")) ∧
    step s₂ (.giI i) = s₂ ∧ step s₂ (.giV i) = s₂ ∧
    s₂.g_input_.getD i.toNat {} = ⟨N ++ "_grad", "", ""⟩ := by
  have hname : s.inputName i = N := hN
  obtain ⟨w, hv, hsp, -, hs⟩ := GI_ok_inv hg
  obtain ⟨hrange, -⟩ := vecAt_ok_inv hv
  obtain ⟨hwi, hwv⟩ := not_sparse_fields hsp
  have hslot : ({ w with dense_ := GradientName (s.inputName i) } : GradientWrapper)
      = ⟨N ++ "_grad", "", ""⟩ := by
    rw [hname, hwi, hwv]
    rfl
  have hvec : vecAt s₂.g_input_ i = .ok ⟨N ++ "_grad", "", ""⟩ := by
    rw [hs]
    show vecAt (s.g_input_.set i.toNat _) i = _
    rw [hslot]
    exact vecAt_set_self _ _ _ hrange
  have hname₂ : s₂.inputName i = N := by rw [hs]; exact hname
  have hgiI : s₂.GI_I i
      = .error (.enforceFailed ("Input " ++ N ++ " already set to dense.")) := by
    simp only [MakerState.GI_I, hvec, grad_name_is_dense, if_true, hname₂]
  have hgiV : s₂.GI_V i
      = .error (.enforceFailed ("Input " ++ N ++ " already set to dense.")) := by
    simp only [MakerState.GI_V, hvec, grad_name_is_dense, if_true, hname₂]
  refine ⟨hgiI, hgiV, ?_, ?_, ?_⟩
  · simp only [step, hgiI]
  · simp only [step, hgiV]
  · rw [hs]
    show (s.g_input_.set i.toNat _).getD i.toNat {} = _
    rw [getD_set_self _ _ _ _ hrange.2]
    exact hslot

/-- Witness for C4 at the concrete maker `exMaker`. -/
theorem C4_conflict_after_GI_witness :
    exMakerAfterGI.GI_I 0
      = .error (.enforceFailed ("Input " ++ "X" ++ " already set to dense.")) ∧
    exMakerAfterGI.GI_V 0
      = .error (.enforceFailed ("Input " ++ "X" ++ " already set to dense.")) ∧
    step exMakerAfterGI (.giI 0) = exMakerAfterGI ∧
    step exMakerAfterGI (.giV 0) = exMakerAfterGI ∧
    exMakerAfterGI.g_input_.getD 0 {} = ⟨"X" ++ "_grad", "", ""⟩ :=
  C4_conflict_after_GI exMaker 0 "X" "X_grad" exMakerAfterGI rfl rfl

theorem getD_eq_get {α : Type} (l : List α) (n : Nat) (d : α) (h : n < l.length) :
    l.getD n d = l.get ⟨n, h⟩ := by
  rw [List.getD, List.get?_eq_getElem?, List.getElem?_eq_getElem h]
  rfl

theorem vecAt_ok_of_getD {α : Type} {l : List α} {i : Int} {d a : α}
    (h : 0 ≤ i ∧ i.toNat < l.length) (hw : l.getD i.toNat d = a) :
    vecAt l i = .ok a := by
  simp only [vecAt, dif_pos h]
  rw [← hw, getD_eq_get l i.toNat d h.2]

theorem length_ne_zero_of_ne_empty {s : String} (h : s ≠ "") : (s.length ≠ 0) := by
  intro h0
  exact h (string_empty_of_length_zero h0)

/-- C5: `GO(i)` succeeds with the dense gradient name exactly when the
supplied output wrapper at `i` is dense; a sparse wrapper yields the
"is sparse (expected dense)." message and an empty wrapper the
"is not provided!" message. -/
theorem C5_GO_requires_dense (s : MakerState) (i : Int) (w : GradientWrapper)
    (hr : 0 ≤ i ∧ i.toNat < s.g_output_.length)
    (hw : s.g_output_.getD i.toNat {} = w) :
    (s.GO i = .ok w.dense_ ↔ w.IsDense = true) ∧
    (w.IsDense = false → w.IsSparse = true →
      s.GO i = .error (.enforceFailed
        ("Gradient of output " ++ s.outputName i ++ " is sparse (expected dense)."))) ∧
    (w.IsDense = false → w.IsSparse = false →
      s.GO i = .error (.enforceFailed
        ("Gradient of output " ++ s.outputName i ++ " is not provided!"))) := by
  have hvec : vecAt s.g_output_ i = .ok w := vecAt_ok_of_getD hr hw
  refine ⟨⟨fun hok => ?_, fun hd => ?_⟩, fun hd hsp => ?_, fun hd hsp => ?_⟩
  · by_contra hnd
    have hd : w.IsDense = false := by
      cases hb : w.IsDense
      · rfl
      · exact absurd hb hnd
    simp [MakerState.GO, hvec, hd] at hok
  · simp [MakerState.GO, hvec, hd]
  · simp [MakerState.GO, hvec, hd, hsp]
  · simp [MakerState.GO, hvec, hd, hsp]

/-- Witness for C5 at concrete dense, sparse and empty output wrappers. -/
theorem C5_GO_requires_dense_witness :
    (exMaker.GO 0 = .ok "Y_grad" ↔
      GradientWrapper.IsDense ⟨"Y_grad", "", ""⟩ = true) ∧
    exMakerSparseOut.GO 0 = .error (.enforceFailed
      ("Gradient of output " ++ exMakerSparseOut.outputName 0 ++
        " is sparse (expected dense).")) ∧
    exMakerEmptyOut.GO 0 = .error (.enforceFailed
      ("Gradient of output " ++ exMakerEmptyOut.outputName 0 ++ " is not provided!")) :=
  ⟨(C5_GO_requires_dense exMaker 0 ⟨"Y_grad", "", ""⟩ (by decide) rfl).1,
   (C5_GO_requires_dense exMakerSparseOut 0 ⟨"", "Y_grad_indices", "Y_grad_values"⟩
      (by decide) rfl).2.1 rfl rfl,
   (C5_GO_requires_dense exMakerEmptyOut 0 {} (by decide) rfl).2.2 rfl rfl⟩

/-- C10: because `IsSparse` is a disjunction of the two fields, `GO_I(i)`
succeeds and returns the empty string when only `values_` is set, and
`GO_V(i)` succeeds and returns the empty string when only `indices_` is
set. -/
theorem C10_GO_half_sparse_returns_empty (s : MakerState) (i : Int)
    (w : GradientWrapper)
    (hr : 0 ≤ i ∧ i.toNat < s.g_output_.length)
    (hw : s.g_output_.getD i.toNat {} = w) :
    (w.indices_ = "" → w.values_ ≠ "" → s.GO_I i = .ok "") ∧
    (w.values_ = "" → w.indices_ ≠ "" → s.GO_V i = .ok "") := by
  have hvec : vecAt s.g_output_ i = .ok w := vecAt_ok_of_getD hr hw
  constructor
  · intro hi hv
    have hsp : w.IsSparse = true := by
      simp [GradientWrapper.IsSparse]
      right
      exact length_ne_zero_of_ne_empty hv
    simp [MakerState.GO_I, hvec, hsp, hi]
  · intro hv hi
    have hsp : w.IsSparse = true := by
      simp [GradientWrapper.IsSparse]
      left
      exact length_ne_zero_of_ne_empty hi
    simp [MakerState.GO_V, hvec, hsp, hv]

/-- Witness for C10 at the concrete half-set output wrappers. -/
theorem C10_GO_half_sparse_returns_empty_witness :
    exMakerValuesOnlyOut.GO_I 0 = .ok "" ∧
    exMakerIndicesOnlyOut.GO_V 0 = .ok "" :=
  ⟨(C10_GO_half_sparse_returns_empty exMakerValuesOnlyOut 0 ⟨"", "", "Y_grad_values"⟩
      (by decide) rfl).1 rfl (by decide),
   (C10_GO_half_sparse_returns_empty exMakerIndicesOnlyOut 0 ⟨"", "Y_grad_indices", ""⟩
      (by decide) rfl).2 rfl (by decide)⟩

theorem vecAt_out_of_range {α : Type} (l : List α) (i : Int)
    (h : ¬(0 ≤ i ∧ i.toNat < l.length)) : vecAt l i = .error .atOutOfRange := by
  simp only [vecAt, dif_neg h]

/-- C9: on a freshly constructed maker (with `g_output_` aligned to the
forward outputs), every accessor invoked with an index outside the
corresponding forward input/output count — negative included — fails with
an out-of-range condition. -/
theorem C9_index_bounds (d : OperatorDef) (gout : List GradientWrapper) (i : Int)
    (name ia va : String)
    (hlen : gout.length = d.outputs.length) :
    (¬(0 ≤ i ∧ i.toNat < d.inputs.length) →
      (mkGradientMaker d gout).I i
        = .error (.enforceFailed "(i >= 0) && (i < def_.input().size())") ∧
      (mkGradientMaker d gout).GI i = .error .atOutOfRange ∧
      (mkGradientMaker d gout).GI_I i = .error .atOutOfRange ∧
      (mkGradientMaker d gout).GI_V i = .error .atOutOfRange ∧
      (mkGradientMaker d gout).SetDense i name = .error .atOutOfRange ∧
      (mkGradientMaker d gout).SetSparse i ia va = .error .atOutOfRange) ∧
    (¬(0 ≤ i ∧ i.toNat < d.outputs.length) →
      (mkGradientMaker d gout).O i
        = .error (.enforceFailed "(i >= 0) && (i < def_.output().size())") ∧
      (mkGradientMaker d gout).GO i = .error .atOutOfRange ∧
      (mkGradientMaker d gout).GO_I i = .error .atOutOfRange ∧
      (mkGradientMaker d gout).GO_V i = .error .atOutOfRange ∧
      (mkGradientMaker d gout).GradOut i = .error .atOutOfRange) := by
  constructor
  · intro hin
    have hg : ¬(0 ≤ i ∧ i.toNat < (mkGradientMaker d gout).g_input_.length) := by
      simpa [mkGradientMaker] using hin
    have hv := vecAt_out_of_range (mkGradientMaker d gout).g_input_ i hg
    refine ⟨?_, ?_, ?_, ?_, ?_, ?_⟩
    · simp only [MakerState.I, mkGradientMaker, dif_neg hin]
    · simp only [MakerState.GI, hv]
    · simp only [MakerState.GI_I, hv]
    · simp only [MakerState.GI_V, hv]
    · simp only [MakerState.SetDense, hv]
    · simp only [MakerState.SetSparse, hv]
  · intro hout
    have hg : ¬(0 ≤ i ∧ i.toNat < (mkGradientMaker d gout).g_output_.length) := by
      simpa [mkGradientMaker, hlen] using hout
    have hv := vecAt_out_of_range (mkGradientMaker d gout).g_output_ i hg
    refine ⟨?_, ?_, ?_, ?_, ?_⟩
    · simp only [MakerState.O, mkGradientMaker, dif_neg hout]
    · simp only [MakerState.GO, hv]
    · simp only [MakerState.GO_I, hv]
    · simp only [MakerState.GO_V, hv]
    · simp only [MakerState.GradOut, hv]

/-- Witness for C9 at the concrete maker `exMaker` with a negative index. -/
theorem C9_index_bounds_witness :
    (mkGradientMaker exDef [⟨"Y_grad", "", ""⟩]).I (-1)
      = .error (.enforceFailed "(i >= 0) && (i < def_.input().size())") ∧
    (mkGradientMaker exDef [⟨"Y_grad", "", ""⟩]).GI (-1) = .error .atOutOfRange ∧
    (mkGradientMaker exDef [⟨"Y_grad", "", ""⟩]).GO (-1) = .error .atOutOfRange ∧
    (mkGradientMaker exDef [⟨"Y_grad", "", ""⟩]).GradOut (-1) = .error .atOutOfRange :=
  ⟨((C9_index_bounds exDef [⟨"Y_grad", "", ""⟩] (-1) "n" "i" "v" rfl).1 (by decide)).1,
   ((C9_index_bounds exDef [⟨"Y_grad", "", ""⟩] (-1) "n" "i" "v" rfl).1 (by decide)).2.1,
   ((C9_index_bounds exDef [⟨"Y_grad", "", ""⟩] (-1) "n" "i" "v" rfl).2 (by decide)).2.1,
   ((C9_index_bounds exDef [⟨"Y_grad", "", ""⟩] (-1) "n" "i" "v" rfl).2 (by decide)).2.2.2.2⟩

/-- C6: when verification and the backward-definition generator succeed,
the base `Get()` returns exactly the meta pairing the generator's list —
each definition marked as a gradient op — with the accumulated
input-gradient wrappers, and every returned definition has the
`is_gradient_op` flag set. -/
theorem C6_get_marks_gradient_ops (reg : String → Option (OperatorDef → Bool))
    (pds : OperatorDef → String)
    (gen : MakerState → Except Err (List OperatorDef × MakerState))
    (s s₂ : MakerState) (defs : List OperatorDef)
    (hv : VerifyOp reg pds s = .ok ())
    (hg : gen s = .ok (defs, s₂)) :
    GradientMakerGet reg pds gen s
      = .ok ⟨defs.map (fun d => { d with is_gradient_op := true }), s₂.g_input_⟩ ∧
    (defs.map (fun d => { d with is_gradient_op := true })).all
      (fun d => d.is_gradient_op) = true := by
  constructor
  · simp only [GradientMakerGet, hv, hg]
  · simp only [List.all_eq_true, List.mem_map]
    rintro d ⟨d₀, -, rfl⟩
    rfl

/-- Witness for C6 with a trivial schema registry and a one-definition
generator. -/
theorem C6_get_marks_gradient_ops_witness :
    GradientMakerGet (fun _ => none) (fun _ => "")
        (fun s => .ok ([exDef], s)) exMaker
      = .ok ⟨[exDef].map (fun d => { d with is_gradient_op := true }),
          exMaker.g_input_⟩ ∧
    ([exDef].map (fun d => { d with is_gradient_op := true })).all
      (fun d => d.is_gradient_op) = true :=
  C6_get_marks_gradient_ops (fun _ => none) (fun _ => "") (fun s => .ok ([exDef], s))
    exMaker exMaker [exDef] rfl rfl

/-- C7: whenever schema verification passes, the No-Gradient variant's
`Get()` returns an empty backward-definition list together with an
input-gradient-wrapper list of one empty wrapper per forward input. -/
theorem C7_no_gradient (reg : String → Option (OperatorDef → Bool))
    (pds : OperatorDef → String) (d : OperatorDef) (gout : List GradientWrapper)
    (hv : VerifyOp reg pds (mkGradientMaker d gout) = .ok ()) :
    noGradientGet reg pds (mkGradientMaker d gout)
      = .ok ⟨[], List.replicate d.inputs.length {}⟩ ∧
    (List.replicate d.inputs.length ({} : GradientWrapper)).length
      = d.inputs.length ∧
    (List.replicate d.inputs.length ({} : GradientWrapper)).all
      (fun w => w.IsEmpty) = true := by
  refine ⟨?_, by simp, ?_⟩
  · simp only [noGradientGet, GradientMakerGet, hv, noGradientGetGradientDefs,
      List.map_nil]
    simp only [mkGradientMaker]
  · simp only [List.all_eq_true]
    intro w hw
    rw [List.eq_of_mem_replicate hw]
    rfl

/-- Witness for C7 with a trivial schema registry. -/
theorem C7_no_gradient_witness :
    noGradientGet (fun _ => none) (fun _ => "") (mkGradientMaker exDef [⟨"Y_grad", "", ""⟩])
      = .ok ⟨[], List.replicate exDef.inputs.length {}⟩ ∧
    (List.replicate exDef.inputs.length ({} : GradientWrapper)).length
      = exDef.inputs.length ∧
    (List.replicate exDef.inputs.length ({} : GradientWrapper)).all
      (fun w => w.IsEmpty) = true :=
  C7_no_gradient (fun _ => none) (fun _ => "") exDef [⟨"Y_grad", "", ""⟩] rfl

/-- C8: for every forward operator definition, the Forbidden-Gradient and
Gradient-Not-Implemented-Yet variants always fail, each with its own
message naming the operator type, and the two messages are distinct. -/
theorem C8_trivial_variants_always_fail (s : MakerState) :
    throwInTheTowelGet s = .error (.enforceFailed
      ("One should not call gradient for operator " ++ s.def_.type ++ ".")) ∧
    gradientNotImplementedYetGet s = .error (.enforceFailed
      ("Operator " ++ s.def_.type ++
        " should have a gradient but is not implemented yet.")) ∧
    ("One should not call gradient for operator " ++ s.def_.type ++ ".")
      ≠ ("Operator " ++ s.def_.type ++
        " should have a gradient but is not implemented yet.") := by
  refine ⟨rfl, rfl, fun h => ?_⟩
  have hlen := congrArg String.length h
  rw [String.length_append, String.length_append, String.length_append,
    String.length_append] at hlen
  have h₁ : ("One should not call gradient for operator " : String).length = 42 := rfl
  have h₂ : ("." : String).length = 1 := rfl
  have h₃ : ("Operator " : String).length = 9 := rfl
  have h₄ : (" should have a gradient but is not implemented yet." : String).length
      = 51 := rfl
  rw [h₁, h₂, h₃, h₄] at hlen
  omega

theorem firstOccur_eq_some (pat : List Char) (l : List Char) (n : Nat) :
    firstOccur pat l = some n ↔
      pat.isPrefixOf (l.drop n) = true ∧
        ∀ m, m < n → pat.isPrefixOf (l.drop m) = false := by
  induction l generalizing n with
  | nil =>
    simp only [firstOccur, List.drop_nil]
    by_cases hp : pat.isPrefixOf ([] : List Char) = true
    · rw [if_pos hp]
      constructor
      · intro h
        obtain rfl : n = 0 := (Option.some.inj h).symm
        exact ⟨hp, fun m hm => absurd hm (Nat.not_lt_zero m)⟩
      · rintro ⟨-, hall⟩
        cases n with
        | zero => rfl
        | succ k =>
          have h₀ := hall 0 (Nat.succ_pos k)
          exact absurd (hp.symm.trans h₀) (by decide)
    · rw [if_neg hp]
      constructor
      · intro h
        exact absurd h (by simp)
      · rintro ⟨h₁, -⟩
        exact absurd h₁ hp
  | cons c rest ih =>
    simp only [firstOccur]
    by_cases hp : pat.isPrefixOf (c :: rest) = true
    · rw [if_pos hp]
      constructor
      · intro h
        obtain rfl : n = 0 := (Option.some.inj h).symm
        exact ⟨by simpa using hp, fun m hm => absurd hm (Nat.not_lt_zero m)⟩
      · rintro ⟨-, hall⟩
        cases n with
        | zero => rfl
        | succ k =>
          have h₀ := hall 0 (Nat.succ_pos k)
          rw [List.drop_zero] at h₀
          exact absurd (hp.symm.trans h₀) (by decide)
    · rw [if_neg hp]
      cases n with
      | zero =>
        simp only [List.drop_zero]
        constructor
        · intro h
          rcases ho : firstOccur pat rest with _ | k <;> rw [ho] at h
          · exact absurd h (by simp)
          · exact absurd h (by simp)
        · rintro ⟨h₁, -⟩
          exact absurd h₁ hp
      | succ k =>
        constructor
        · intro h
          rcases ho : firstOccur pat rest with _ | j <;> rw [ho] at h
          · exact absurd h (by simp)
          · have hj : j + 1 = k + 1 := by simpa using h
            obtain rfl : k = j := (Nat.succ.inj hj).symm
            obtain ⟨ih₁, ih₂⟩ := (ih k).mp ho
            refine ⟨by simpa using ih₁, ?_⟩
            intro m hm
            cases m with
            | zero =>
              simpa using Bool.not_eq_true (pat.isPrefixOf (c :: rest)) ▸ hp
            | succ m₂ =>
              have hm₂ : m₂ < k := by omega
              simpa using ih₂ m₂ hm₂
        · rintro ⟨h₁, hall⟩
          have hrest : firstOccur pat rest = some k := by
            rw [ih k]
            refine ⟨by simpa using h₁, ?_⟩
            intro m hm
            have := hall (m + 1) (by omega)
            simpa using this
          rw [hrest]
          rfl

theorem IsGradientBlob_iff (name : String) :
    IsGradientBlob name = true ↔
      5 < name.length ∧ name.data.drop (name.length - 5) = "_grad".data ∧
        ∀ m, m < name.length - 5 →
          "_grad".data.isPrefixOf (name.data.drop m) = false := by
  unfold IsGradientBlob
  rw [Bool.and_eq_true, decide_eq_true_eq]
  constructor
  · rintro ⟨h₅, hf⟩
    have hfo : firstOccur "_grad".data name.data = some (name.length - 5) := by
      simpa using hf
    obtain ⟨h₁, h₂⟩ := (firstOccur_eq_some _ _ _).mp hfo
    refine ⟨h₅, ?_, h₂⟩
    have hdl : name.length = name.data.length := rfl
    have hlen : (name.data.drop (name.length - 5)).length = 5 := by
      rw [List.length_drop]
      omega
    have hpre : "_grad".data <+: name.data.drop (name.length - 5) :=
      List.isPrefixOf_iff_prefix.mp h₁
    have hpl : ("_grad".data).length = 5 := rfl
    exact (hpre.eq_of_length (by rw [hlen, hpl])).symm
  · rintro ⟨h₅, heq, hall⟩
    refine ⟨h₅, ?_⟩
    have hfo : firstOccur "_grad".data name.data = some (name.length - 5) := by
      rw [firstOccur_eq_some]
      refine ⟨?_, hall⟩
      rw [heq]
      exact List.isPrefixOf_iff_prefix.mpr (List.prefix_refl _)
    simpa using hfo

theorem mapLookup_mapInsert (k a v : String) (m : List (String × String)) :
    mapLookup k (mapInsert a v m) = if k = a then some v else mapLookup k m := by
  induction m with
  | nil =>
    simp [mapInsert, mapLookup]
  | cons p rest ih =>
    obtain ⟨k₂, v₂⟩ := p
    by_cases hak : a = k₂ <;> by_cases hka : k = a <;> by_cases hkk : k = k₂ <;>
      simp_all [mapInsert, mapLookup]

theorem mapLookup_build (l : List String) (m₀ : List (String × String)) (k : String) :
    mapLookup k
        (l.foldl
          (fun m out =>
            if IsGradientBlob out then mapInsert out (stripGradSuffix out) m else m)
          m₀)
      = if k ∈ l ∧ IsGradientBlob k = true then some (stripGradSuffix k)
        else mapLookup k m₀ := by
  induction l generalizing m₀ with
  | nil =>
    simp
  | cons a l ih =>
    simp only [List.foldl_cons, ih]
    by_cases hmem : k ∈ l ∧ IsGradientBlob k = true
    · rw [if_pos hmem, if_pos ⟨List.mem_cons_of_mem a hmem.1, hmem.2⟩]
    · rw [if_neg hmem]
      by_cases hblob : IsGradientBlob a = true
      · rw [if_pos hblob, mapLookup_mapInsert]
        by_cases hka : k = a
        · subst hka
          rw [if_pos rfl, if_pos ⟨List.mem_cons_self k l, hblob⟩]
        · rw [if_neg hka,
            if_neg (fun hc => hmem ⟨(List.mem_cons.mp hc.1).resolve_left hka, hc.2⟩)]
      · rw [if_neg hblob]
        by_cases hka : k = a
        · subst hka
          rw [if_neg (fun hc => hblob hc.2)]
        · rw [if_neg (fun hc => hmem ⟨(List.mem_cons.mp hc.1).resolve_left hka, hc.2⟩)]

/-- C2 (counterexample to the claim as stated): the output name
`a_grad_grad` has suffix `_grad` and length 11 > 5, yet
`MatchGradsToParams` does not return it as a key, because the code matches
the FIRST occurrence of `_grad` (at index 1) against length - 5 (= 6). -/
theorem C2_match_grads_counterexample :
    5 < ("a_grad_grad" : String).length ∧
    ("a_grad_grad" : String).data.drop (("a_grad_grad" : String).length - 5)
      = "_grad".data ∧
    MatchGradsToParams cexDefGradGrad = [] ∧
    mapLookup "a_grad_grad" (MatchGradsToParams cexDefGradGrad) = none := by
  refine ⟨by decide, by decide, ?_, ?_⟩ <;> decide

/-- C2 (amended): `MatchGradsToParams` maps exactly those output names
whose FIRST occurrence of `"_grad"` is at position length - 5 — that is,
suffix `"_grad"`, length > 5, and no occurrence of `"_grad"` at any earlier
position — to the name with the 5-character suffix stripped; in particular
for outputs `["W_grad", "b"]` it returns exactly `{"W_grad" -> "W"}`. -/
theorem C2_match_grads_to_params_amended :
    (∀ (op : OperatorDef) (out v : String),
      mapLookup out (MatchGradsToParams op) = some v ↔
        out ∈ op.outputs ∧ 5 < out.length ∧
        out.data.drop (out.length - 5) = "_grad".data ∧
        (∀ m, m < out.length - 5 →
          "_grad".data.isPrefixOf (out.data.drop m) = false) ∧
        v = stripGradSuffix out) ∧
    MatchGradsToParams exDefWb = [("W_grad", "W")] ∧
    stripGradSuffix "W_grad" = "W" := by
  refine ⟨?_, by decide, by decide⟩
  intro op out v
  rw [MatchGradsToParams, mapLookup_build]
  by_cases hc : out ∈ op.outputs ∧ IsGradientBlob out = true
  · rw [if_pos hc]
    simp only [Option.some.injEq]
    constructor
    · intro hv
      obtain ⟨h₅, hsuf, hall⟩ := (IsGradientBlob_iff out).mp hc.2
      exact ⟨hc.1, h₅, hsuf, hall, hv.symm⟩
    · rintro ⟨-, -, -, -, rfl⟩
      rfl
  · rw [if_neg hc]
    constructor
    · intro h
      exact absurd h (by simp [mapLookup])
    · rintro ⟨hmem, h₅, hsuf, hall, -⟩
      exact absurd ⟨hmem, (IsGradientBlob_iff out).mpr ⟨h₅, hsuf, hall⟩⟩ hc

end Caffe2
